import Mathlib

set_option maxRecDepth 8192

namespace ResumableDownloader

/-- Bytes of a file or of a network body, modelled as a list of naturals
(each intended to be < 256). -/
abbrev Bytes := List Nat

/-- Local state of a target path: `none` when the file does not exist,
`some content` when it exists with the given bytes on disk, so that
`file.stat().st_size` is `content.length`. -/
abbrev LocalFile := Option Bytes

/-- Remote object behind a catalog URL: the actual body served for a full GET,
and the size reported by the `content-length` header of a HEAD request,
`int(r.headers.get('content-length', 0))` — 0 when the header is absent. -/
structure Remote where
  body : Bytes
  reportedSize : Nat
deriving DecidableEq

/-- File open mode used by `downloader`: `'ab'` (append) or `'wb'`
(truncate-write). -/
inductive FileMode where
  | append
  | write
deriving DecidableEq

/-- Python truthiness of the `resume_byte_pos` argument of `downloader`:
`None` and `0` are falsy, every other integer is truthy. -/
def truthy : Option Nat → Bool
  | none => false
  | some n => n != 0

/-- Range header attached by `downloader`:
`{'Range': f'bytes=\x7bresume_byte_pos\x7d-'} if resume_byte_pos else None`.
We record just the offset of the `bytes=off-` header, `none` meaning that no
range header is sent. -/
def resumeHeader (resumeBytePos : Option Nat) : Option Nat :=
  if truthy resumeBytePos then resumeBytePos else none

/-- Body returned by the server for `requests.get(url, headers=resume_header)`:
a full GET returns the whole body, and the server is assumed (spec section 6)
to honor a `bytes=off-` range header by returning the suffix of the body from
that offset. -/
def serverBody (remote : Remote) (range : Option Nat) : Bytes :=
  match range with
  | none => remote.body
  | some off => remote.body.drop off

/-- Observable effect of one `downloader(position, resume_byte_pos)` call:
the range header sent, the file open mode, the body bytes streamed, and the
bytes on disk afterwards. -/
structure TransferTrace where
  rangeHeader : Option Nat
  mode : FileMode
  transferred : Bytes
  result : Bytes
deriving DecidableEq

/-- Embedding of `downloader` (src/Resumable_Downloader.py lines 72-107):
build the resume header from the truthiness of `resume_byte_pos`, GET the
(possibly ranged) body, open the target in `'ab'` or `'wb'`, and stream every
chunk of the response to the file. The initial HEAD request and the tqdm
progress bar only feed the progress display and have no effect on the bytes
written, so they are not part of the trace. -/
def downloader (remote : Remote) (localFile : LocalFile) (resumeBytePos : Option Nat) :
    TransferTrace :=
  let header := resumeHeader resumeBytePos
  let body := serverBody remote header
  let mode := if truthy resumeBytePos then FileMode.append else FileMode.write
  { rangeHeader := header
    mode := mode
    transferred := body
    result :=
      match mode with
      | FileMode.append => localFile.getD [] ++ body
      | FileMode.write => body }

/-- Transfer decision taken by `download_file` for one entry. -/
inductive TransferMode where
  | Skip
  | ResumeFrom (offset : Nat)
  | FreshStart
deriving DecidableEq

/-- Reconciliation decision of `download_file`
(src/Resumable_Downloader.py lines 127-138): an existing file is resumed from
its current size whenever the reported online size differs from the offline
size, skipped when the two sizes are equal, and an absent file starts fresh. -/
def reconcile (reportedSize : Nat) (localFile : LocalFile) : TransferMode :=
  match localFile with
  | some content =>
      if reportedSize ≠ content.length then TransferMode.ResumeFrom content.length
      else TransferMode.Skip
  | none => TransferMode.FreshStart

/-- Embedding of `download_file` (src/Resumable_Downloader.py lines 110-138).
Returns `some trace` when `downloader` is invoked and `none` for the skip
branch, in which no body transfer is made at all. -/
def download_file (remote : Remote) (localFile : LocalFile) : Option TransferTrace :=
  match localFile with
  | some content =>
      if remote.reportedSize ≠ content.length then
        some (downloader remote (some content) (some content.length))
      else none
  | none => some (downloader remote none none)

/-- File content on disk after `download_file` ran on one entry. -/
def localAfterDownload (remote : Remote) (localFile : LocalFile) : Bytes :=
  match download_file remote localFile with
  | some t => t.result
  | none => localFile.getD []

/-- Outcome of the HEAD probe issued for one catalog entry: the remote
metadata and body, or a network failure raised as a `requests` exception. -/
inductive ProbeResult where
  | ok (remote : Remote)
  | failed
deriving DecidableEq

/-- Embedding of the `download` command (src/Resumable_Downloader.py lines
189-195): `for position in range(len(URLS)): download_file(position)`. The
loop body is not guarded by any try/except, so the first probe failure
propagates out of the loop and aborts it, leaving the failing entry and every
later entry untouched on disk. -/
def download : List ProbeResult → List LocalFile → List LocalFile
  | [], locals => locals
  | ProbeResult.failed :: _, locals => locals
  | ProbeResult.ok _ :: _, [] => []
  | ProbeResult.ok remote :: probes, localFile :: locals =>
      some (localAfterDownload remote localFile) :: download probes locals

/-- Modulus for 32-bit words of SHA-256. -/
def w32 : Nat := 4294967296

/-- Right rotation of a 32-bit word. -/
def rotr (n x : Nat) : Nat := ((x >>> n) ||| (x <<< (32 - n))) % w32

def bigSigma0 (x : Nat) : Nat := rotr 2 x ^^^ rotr 13 x ^^^ rotr 22 x

def bigSigma1 (x : Nat) : Nat := rotr 6 x ^^^ rotr 11 x ^^^ rotr 25 x

def smallSigma0 (x : Nat) : Nat := rotr 7 x ^^^ rotr 18 x ^^^ (x >>> 3)

def smallSigma1 (x : Nat) : Nat := rotr 17 x ^^^ rotr 19 x ^^^ (x >>> 10)

/-- Round constants of SHA-256 (FIPS 180-4), in decimal. -/
def K256 : List Nat :=
  [1116352408, 1899447441, 3049323471, 3921009573, 961987163,
   1508970993, 2453635748, 2870763221, 3624381080, 310598401,
   607225278, 1426881987, 1925078388, 2162078206, 2614888103,
   3248222580, 3835390401, 4022224774, 264347078, 604807628,
   770255983, 1249150122, 1555081692, 1996064986, 2554220882,
   2821834349, 2952996808, 3210313671, 3336571891, 3584528711,
   113926993, 338241895, 666307205, 773529912, 1294757372,
   1396182291, 1695183700, 1986661051, 2177026350, 2456956037,
   2730485921, 2820302411, 3259730800, 3345764771, 3516065817,
   3600352804, 4094571909, 275423344, 430227734, 506948616,
   659060556, 883997877, 958139571, 1322822218, 1537002063,
   1747873779, 1955562222, 2024104815, 2227730452, 2361852424,
   2428436474, 2756734187, 3204031479, 3329325298]

/-- Initial hash state of SHA-256 (FIPS 180-4), in decimal. -/
def initH : List Nat :=
  [1779033703, 3144134277, 1013904242, 2773480762,
   1359893119, 2600822924, 528734635, 1541459225]

/-- Big-endian byte encoding of a natural in a fixed number of bytes. -/
def toBytesBE : Nat → Nat → Bytes
  | 0, _ => []
  | k + 1, n => toBytesBE k (n / 256) ++ [n % 256]

/-- SHA-256 padding: append the 0x80 byte, zero bytes up to 56 mod 64, and the
bit length of the message as an 8-byte big-endian integer. -/
def padMessage (msg : Bytes) : Bytes :=
  msg ++ 0x80 :: (List.replicate ((119 - msg.length % 64) % 64) 0 ++
    toBytesBE 8 (8 * msg.length))

/-- Group bytes into big-endian 32-bit words. -/
def bytesToWords : Bytes → List Nat
  | a :: b :: c :: d :: rest =>
      (a * 16777216 + b * 65536 + c * 256 + d) :: bytesToWords rest
  | _ => []

/-- Split a word list into blocks of 16 words; the fuel argument bounds the
number of blocks and is instantiated with the word count, which always
suffices because every block consumes at least one word. -/
def toBlocksAux : Nat → List Nat → List (List Nat)
  | 0, _ => []
  | _, [] => []
  | fuel + 1, w :: rest => (w :: rest).take 16 :: toBlocksAux fuel ((w :: rest).drop 16)

/-- Split a word list into blocks of 16 words. -/
def toBlocks (ws : List Nat) : List (List Nat) := toBlocksAux ws.length ws

/-- Extend the 16-word message schedule by the given number of words. -/
def extendW : Nat → List Nat → List Nat
  | 0, ws => ws
  | k + 1, ws =>
      let i := ws.length
      let wi := (smallSigma1 (ws.getD (i - 2) 0) + ws.getD (i - 7) 0 +
                 smallSigma0 (ws.getD (i - 15) 0) + ws.getD (i - 16) 0) % w32
      extendW k (ws ++ [wi])

/-- One round of the SHA-256 compression function on the 8-word state. -/
def shaRound (state : List Nat) (ki wi : Nat) : List Nat :=
  match state with
  | [a, b, c, d, e, f, g, h] =>
      let ch := (e &&& f) ^^^ ((e ^^^ (w32 - 1)) &&& g)
      let t1 := (h + bigSigma1 e + ch + ki + wi) % w32
      let maj := (a &&& b) ^^^ (a &&& c) ^^^ (b &&& c)
      let t2 := (bigSigma0 a + maj) % w32
      [(t1 + t2) % w32, a, b, c, (d + t1) % w32, e, f, g]
  | s => s

/-- Compress one 16-word block into the running 8-word hash state. -/
def compressBlock (hs : List Nat) (block : List Nat) : List Nat :=
  let ws := extendW 48 block
  let s := (K256.zip ws).foldl (fun st kw => shaRound st kw.1 kw.2) hs
  List.zipWith (fun a b => (a + b) % w32) hs s

/-- Lowercase hexadecimal character for a nibble. -/
def hexChar (n : Nat) : Char :=
  if n < 10 then Char.ofNat (48 + n) else Char.ofNat (87 + n)

/-- Lowercase hexadecimal rendering of one 32-bit word (8 digits). -/
def wordToHex (w : Nat) : String :=
  String.mk ((List.range 8).map fun i => hexChar ((w >>> (28 - 4 * i)) % 16))

/-- SHA-256 of a byte sequence as a lowercase hexadecimal string, the
embedding of `hashlib.sha256` / `sha.hexdigest()` used by `validate_file`. -/
def sha256Hex (msg : Bytes) : String :=
  let blocks := toBlocks (bytesToWords (padMessage msg))
  let finalH := blocks.foldl compressBlock initH
  String.join (finalH.map wordToHex)

/-- Outcome printed by `validate_file` when it returns normally. -/
inductive ValidationOutcome where
  | NoHash
  | Validated
  | Corrupt
deriving DecidableEq

/-- Embedding of `validate_file` (src/Resumable_Downloader.py lines 141-171).
The hash lookup `HASHES[position]` is guarded against IndexError only: a
position with no registered hash returns the no-hash outcome before the file
is touched. With a registered hash, `open(file, 'rb')` on a missing file
raises an uncaught FileNotFoundError, modelled as `Except.error ()`.
Otherwise the file is streamed through sha256 and its lowercase hex digest is
compared by exact string equality with the registered hash. -/
def validate_file (hashes : List String) (position : Nat) (file : LocalFile) :
    Except Unit ValidationOutcome :=
  match hashes[position]? with
  | none => Except.ok ValidationOutcome.NoHash
  | some h =>
      match file with
      | none => Except.error ()
      | some content =>
          if sha256Hex content = h then Except.ok ValidationOutcome.Validated
          else Except.ok ValidationOutcome.Corrupt

/-- Helper for `validate`: process the files from a given position onwards,
sequentially, stopping at the first uncaught exception (the Python loop has
no try/except around `validate_file`). -/
def validateFrom (hashes : List String) (position : Nat) :
    List LocalFile → Except Unit (List ValidationOutcome)
  | [] => Except.ok []
  | file :: files =>
      match validate_file hashes position file with
      | Except.error e => Except.error e
      | Except.ok outcome =>
          match validateFrom hashes (position + 1) files with
          | Except.error e => Except.error e
          | Except.ok outcomes => Except.ok (outcome :: outcomes)

/-- Embedding of the `validate` command (src/Resumable_Downloader.py lines
198-204): `for position in range(len(URLS)): validate_file(position)`. -/
def validate (hashes : List String) (files : List LocalFile) :
    Except Unit (List ValidationOutcome) :=
  validateFrom hashes 0 files

/-- Characterization of the on-disk content after `download_file` on an
existing file: equal sizes skip, an empty local file is rewritten from a full
GET, and any other size difference appends the ranged suffix of the body. -/
theorem localAfterDownload_some (remote : Remote) (content : Bytes) :
    localAfterDownload remote (some content) =
      if remote.reportedSize = content.length then content
      else if content.length = 0 then remote.body
      else content ++ remote.body.drop content.length := by
  by_cases hR : remote.reportedSize = content.length
  · simp [localAfterDownload, download_file, hR]
  · by_cases h0 : content.length = 0
    · have hR0 : remote.reportedSize ≠ 0 := by
        rw [h0] at hR
        exact hR
      simp [localAfterDownload, download_file, downloader, resumeHeader, truthy, serverBody,
        hR0, h0]
    · simp [localAfterDownload, download_file, downloader, resumeHeader, truthy, serverBody,
        hR, h0]

/-- Content after `download_file` on an absent file is a full fresh GET. -/
theorem localAfterDownload_none (remote : Remote) :
    localAfterDownload remote none = remote.body := rfl

/-- Running `download_file` on a file that already holds exactly the remote
body leaves it unchanged. -/
theorem localAfterDownload_body (remote : Remote) :
    localAfterDownload remote (some remote.body) = remote.body := by
  rw [localAfterDownload_some]
  split_ifs <;> simp

/-- One entry of the download loop is idempotent: running `download_file`
again on the file it produced changes nothing. -/
theorem localAfterDownload_idem (remote : Remote) (localFile : LocalFile) :
    localAfterDownload remote (some (localAfterDownload remote localFile)) =
      localAfterDownload remote localFile := by
  cases localFile with
  | none =>
      rw [localAfterDownload_none]
      exact localAfterDownload_body remote
  | some content =>
      by_cases hR : remote.reportedSize = content.length
      · have hx : localAfterDownload remote (some content) = content := by
          rw [localAfterDownload_some, if_pos hR]
        rw [hx]
        exact hx
      · by_cases h0 : content.length = 0
        · have hx : localAfterDownload remote (some content) = remote.body := by
            rw [localAfterDownload_some, if_neg hR, if_pos h0]
          rw [hx]
          exact localAfterDownload_body remote
        · have hx : localAfterDownload remote (some content) =
              content ++ remote.body.drop content.length := by
            rw [localAfterDownload_some, if_neg hR, if_neg h0]
          rw [hx]
          have hlen : remote.body.length ≤
              (content ++ remote.body.drop content.length).length := by
            rw [List.length_append, List.length_drop]
            omega
          have hx0 : (content ++ remote.body.drop content.length).length ≠ 0 := by
            rw [List.length_append]
            omega
          rw [localAfterDownload_some]
          by_cases hR2 : remote.reportedSize =
              (content ++ remote.body.drop content.length).length
          · rw [if_pos hR2]
          · rw [if_neg hR2, if_neg hx0, List.drop_eq_nil_of_le hlen, List.append_nil]

/-- Helper for claim C8: a validate run with no registered hashes reports the
no-hash outcome for every file, starting from any position. -/
theorem validateFrom_no_hashes (position : Nat) (files : List LocalFile) :
    validateFrom [] position files =
      Except.ok (files.map fun _ => ValidationOutcome.NoHash) := by
  induction files generalizing position with
  | nil => rfl
  | cons f fs ih => simp [validateFrom, validate_file, ih]

/-- Claim C1 counterexample: a catalog entry whose remote total size is
unknown (content-length absent, reported 0) and whose local file exists with
5 bytes is reconciled to ResumeFrom 5, and `download_file` issues a ranged
(`bytes=5-`) appending transfer against the unknown total, contradicting the
claim that no resume is ever chosen in this situation. -/
theorem unknown_total_resume_counterexample :
    reconcile 0 (some [1, 2, 3, 4, 5]) = TransferMode.ResumeFrom 5 ∧
    (download_file ⟨[9, 9, 9, 9, 9, 9], 0⟩ (some [1, 2, 3, 4, 5])).map
      TransferTrace.rangeHeader = some (some 5) ∧
    (download_file ⟨[9, 9, 9, 9, 9, 9], 0⟩ (some [1, 2, 3, 4, 5])).map
      TransferTrace.mode = some FileMode.append :=
  ⟨rfl, rfl, rfl⟩

/-- Claim C1 amended: when the remote total size is unknown (reported 0),
an absent local file starts fresh and an empty local file is skipped, but a
nonempty local file is treated as incomplete: `download_file` issues a
ResumeFrom(local size) transfer with a `bytes=size-` range header in append
mode, so the code does resume against an unknown total. -/
theorem unknown_total_policy_amended (body content : Bytes) (hne : content ≠ []) :
    reconcile 0 none = TransferMode.FreshStart ∧
    reconcile 0 (some []) = TransferMode.Skip ∧
    reconcile 0 (some content) = TransferMode.ResumeFrom content.length ∧
    (download_file ⟨body, 0⟩ (some content)).map TransferTrace.rangeHeader =
      some (some content.length) ∧
    (download_file ⟨body, 0⟩ (some content)).map TransferTrace.mode =
      some FileMode.append := by
  have hlen : content.length ≠ 0 := fun h => hne (List.length_eq_zero.mp h)
  have h2 : (0 : Nat) ≠ content.length := fun h => hlen h.symm
  refine ⟨rfl, rfl, ?_, ?_, ?_⟩
  · simp [reconcile, h2]
  · simp [download_file, downloader, resumeHeader, truthy, h2, hlen]
  · simp [download_file, downloader, resumeHeader, truthy, h2, hlen]

/-- Witness for the amended claim C1 at a concrete input. -/
theorem unknown_total_policy_amended_witness :
    reconcile 0 none = TransferMode.FreshStart ∧
    reconcile 0 (some []) = TransferMode.Skip ∧
    reconcile 0 (some [1]) = TransferMode.ResumeFrom 1 ∧
    (download_file ⟨[9, 9], 0⟩ (some [1])).map TransferTrace.rangeHeader =
      some (some 1) ∧
    (download_file ⟨[9, 9], 0⟩ (some [1])).map TransferTrace.mode =
      some FileMode.append :=
  unknown_total_policy_amended [9, 9] [1] (by decide)

/-- Claim C2: with a known nonzero remote size, reconciliation matches the
table of the spec: absent local file gives FreshStart, a strictly smaller
local file gives ResumeFrom(local size), and an equal-size local file gives
Skip with `download_file` performing no body transfer at all. -/
theorem known_size_reconciliation_table (reported : Nat) (content body : Bytes)
    (hk : reported ≠ 0) :
    reconcile reported none = TransferMode.FreshStart ∧
    (content.length < reported →
      reconcile reported (some content) = TransferMode.ResumeFrom content.length) ∧
    (content.length = reported →
      reconcile reported (some content) = TransferMode.Skip ∧
        download_file ⟨body, reported⟩ (some content) = none) := by
  refine ⟨rfl, fun hlt => ?_, fun heq => ⟨?_, ?_⟩⟩
  · have hne : reported ≠ content.length := by omega
    simp [reconcile, hne]
  · simp [reconcile, heq]
  · simp [download_file, heq]

/-- Witness for claim C2 at concrete inputs covering all three rows. -/
theorem known_size_reconciliation_table_witness :
    reconcile 2 none = TransferMode.FreshStart ∧
    reconcile 2 (some [5]) = TransferMode.ResumeFrom 1 ∧
    reconcile 2 (some [5, 6]) = TransferMode.Skip ∧
    download_file ⟨[5, 6], 2⟩ (some [5, 6]) = none := by
  obtain ⟨h1, h2, -⟩ := known_size_reconciliation_table 2 [5] [5, 6] (by decide)
  obtain ⟨-, -, h3⟩ := known_size_reconciliation_table 2 [5, 6] [5, 6] (by decide)
  exact ⟨h1, h2 (by decide), (h3 (by decide)).1, (h3 (by decide)).2⟩

/-- Claim C3 counterexample: a local file of 5 bytes against a known remote
size of 3 is reconciled to ResumeFrom 5, and `download_file` does issue a
resuming (appending, `bytes=5-` ranged) transfer from the oversized local
size, contradicting the claim that no such transfer is issued. -/
theorem oversized_local_counterexample :
    reconcile 3 (some [9, 9, 9, 9, 9]) = TransferMode.ResumeFrom 5 ∧
    (download_file ⟨[1, 2, 3], 3⟩ (some [9, 9, 9, 9, 9])).map
      TransferTrace.rangeHeader = some (some 5) ∧
    (download_file ⟨[1, 2, 3], 3⟩ (some [9, 9, 9, 9, 9])).map
      TransferTrace.mode = some FileMode.append :=
  ⟨rfl, rfl, rfl⟩

/-- Claim C3 amended: when the local size strictly exceeds the known remote
size, the code deterministically issues a ResumeFrom(local size) appending
transfer with a `bytes=size-` range header (rather than treating the entry as
Complete/Skip or flagging an inconsistency); the server then returns an empty
suffix so the oversized file is left unchanged. -/
theorem oversized_local_amended (body content : Bytes)
    (hgt : body.length < content.length) (hk : body.length ≠ 0) :
    reconcile body.length (some content) = TransferMode.ResumeFrom content.length ∧
    (download_file ⟨body, body.length⟩ (some content)).map TransferTrace.rangeHeader =
      some (some content.length) ∧
    (download_file ⟨body, body.length⟩ (some content)).map TransferTrace.mode =
      some FileMode.append ∧
    (download_file ⟨body, body.length⟩ (some content)).map TransferTrace.result =
      some content := by
  have hne : body.length ≠ content.length := by omega
  have hlen : content.length ≠ 0 := by omega
  have hdrop : body.drop content.length = [] := List.drop_eq_nil_of_le (by omega)
  refine ⟨?_, ?_, ?_, ?_⟩
  · simp [reconcile, hne]
  · simp [download_file, downloader, resumeHeader, truthy, hne, hlen]
  · simp [download_file, downloader, resumeHeader, truthy, hne, hlen]
  · simp [download_file, downloader, resumeHeader, truthy, serverBody, hne, hlen, hdrop]

/-- Witness for the amended claim C3 at a concrete input. -/
theorem oversized_local_amended_witness :
    reconcile 3 (some [9, 9, 9, 9, 9]) = TransferMode.ResumeFrom 5 ∧
    (download_file ⟨[1, 2, 3], 3⟩ (some [9, 9, 9, 9, 9])).map
      TransferTrace.rangeHeader = some (some 5) ∧
    (download_file ⟨[1, 2, 3], 3⟩ (some [9, 9, 9, 9, 9])).map
      TransferTrace.mode = some FileMode.append ∧
    (download_file ⟨[1, 2, 3], 3⟩ (some [9, 9, 9, 9, 9])).map
      TransferTrace.result = some [9, 9, 9, 9, 9] :=
  oversized_local_amended [1, 2, 3] [9, 9, 9, 9, 9] (by decide) (by decide)

/-- Claim C4: a transfer invoked with a resume offset greater than 0 opens the
target in append mode, sends a `bytes=offset-` range header, and never
truncates the existing local bytes: the previously present bytes, and in
particular those at positions 0..offset-1, are unchanged afterwards. -/
theorem resume_appends_with_range_header (remote : Remote) (content : Bytes)
    (offset : Nat) (h0 : offset ≠ 0) :
    (downloader remote (some content) (some offset)).mode = FileMode.append ∧
    (downloader remote (some content) (some offset)).rangeHeader = some offset ∧
    ((downloader remote (some content) (some offset)).result).take content.length =
      content ∧
    (offset ≤ content.length →
      ((downloader remote (some content) (some offset)).result).take offset =
        content.take offset) := by
  have ht : truthy (some offset) = true := by simp [truthy, h0]
  refine ⟨?_, ?_, ?_, fun hle => ?_⟩
  · simp [downloader, ht]
  · simp [downloader, resumeHeader, ht]
  · simp [downloader, resumeHeader, serverBody, ht, List.take_left]
  · simp [downloader, resumeHeader, serverBody, ht, List.take_append_of_le_length hle]

/-- Witness for claim C4 at a concrete input. -/
theorem resume_appends_with_range_header_witness :
    (downloader ⟨[1, 2, 3, 4], 4⟩ (some [1, 2]) (some 2)).mode = FileMode.append ∧
    (downloader ⟨[1, 2, 3, 4], 4⟩ (some [1, 2]) (some 2)).rangeHeader = some 2 ∧
    ((downloader ⟨[1, 2, 3, 4], 4⟩ (some [1, 2]) (some 2)).result).take 2 = [1, 2] ∧
    ((downloader ⟨[1, 2, 3, 4], 4⟩ (some [1, 2]) (some 2)).result).take 2 =
      List.take 2 [1, 2] := by
  obtain ⟨h1, h2, h3, h4⟩ :=
    resume_appends_with_range_header ⟨[1, 2, 3, 4], 4⟩ [1, 2] 2 (by decide)
  exact ⟨h1, h2, h3, h4 (by decide)⟩

/-- Claim C5: running the `download` command twice with the same remote state
(same reported sizes and bodies) produces on-disk bytes identical to a single
run for every catalog entry; the second run appends no data. -/
theorem download_idempotent (remotes : List Remote) (locals : List LocalFile) :
    download (remotes.map ProbeResult.ok) (download (remotes.map ProbeResult.ok) locals) =
      download (remotes.map ProbeResult.ok) locals := by
  induction remotes generalizing locals with
  | nil => rfl
  | cons r rs ih =>
      cases locals with
      | nil => rfl
      | cons l ls =>
          simp only [List.map_cons, download]
          rw [localAfterDownload_idem, ih]

/-- Claim C6 counterexample: with a digest registered for the entry and no
local file on disk, `validate_file` terminates with an uncaught
file-not-found error (modelled `Except.error ()`) instead of reporting a
FileMissing outcome; no FileMissing outcome exists in the code. -/
theorem missing_file_error_counterexample :
    validate_file ["e3b0c44298fc1c149afbf4c8996fb92427ae41e4649b934ca495991b7852b855"]
      0 none = Except.error () := rfl

/-- Claim C6 amended: when the entry carries a registered digest and the
target file does not exist, `validate_file` raises an unhandled
file-not-found error, and a `validate` run hitting such an entry aborts with
that error instead of reporting a FileMissing outcome. -/
theorem missing_file_amended (hashes : List String) (position : Nat)
    (files : List LocalFile) (hp : position < hashes.length) :
    validate_file hashes position none = Except.error () ∧
    validate hashes (none :: files) = Except.error () := by
  have h0 : 0 < hashes.length := Nat.lt_of_le_of_lt (Nat.zero_le position) hp
  obtain ⟨v, e1⟩ : ∃ v, hashes[position]? = some v := ⟨_, List.getElem?_eq_getElem hp⟩
  obtain ⟨v0, e2⟩ : ∃ v, hashes[0]? = some v := ⟨_, List.getElem?_eq_getElem h0⟩
  constructor
  · simp [validate_file, e1]
  · simp [validate, validateFrom, validate_file, e2]

/-- Witness for the amended claim C6 at a concrete input. -/
theorem missing_file_amended_witness :
    validate_file ["ff"] 0 none = Except.error () ∧
    validate ["ff"] [none] = Except.error () :=
  missing_file_amended ["ff"] 0 [] (by decide)

set_option maxHeartbeats 1000000 in
/-- Claim C7 counterexample: the computed digest of the empty file is the
lowercase hex string below, and registering its uppercase form (differing
from the computed digest only in letter case) makes `validate_file` report
the corrupt (mismatch) outcome instead of a match, because the comparison is
exact, not case-insensitive. -/
theorem digest_case_counterexample :
    sha256Hex [] =
      "e3b0c44298fc1c149afbf4c8996fb92427ae41e4649b934ca495991b7852b855" ∧
    validate_file ["e3b0c44298fc1c149afbf4c8996fb92427ae41e4649b934ca495991b7852b855"]
      0 (some []) = Except.ok ValidationOutcome.Validated ∧
    validate_file ["E3B0C44298FC1C149AFBF4C8996FB92427AE41E4649B934CA495991B7852B855"]
      0 (some []) = Except.ok ValidationOutcome.Corrupt :=
  ⟨by decide, rfl, rfl⟩

/-- Claim C7 amended: the verifier compares the computed lowercase hex digest
with the registered value by exact, case-sensitive string equality: any
registered value other than the exact lowercase digest — including one
differing from it only in letter case — yields the corrupt (mismatch)
outcome, while the exact lowercase digest validates. -/
theorem digest_case_amended (content : Bytes) (expected : String)
    (hc : expected ≠ sha256Hex content) :
    validate_file [expected] 0 (some content) = Except.ok ValidationOutcome.Corrupt ∧
    validate_file [sha256Hex content] 0 (some content) =
      Except.ok ValidationOutcome.Validated := by
  have hne : sha256Hex content ≠ expected := fun h => hc h.symm
  constructor
  · simp [validate_file, hne]
  · simp [validate_file]

set_option maxHeartbeats 1000000 in
/-- Witness for the amended claim C7 at the empty file, with the registered
value differing from the computed digest only in letter case. -/
theorem digest_case_amended_witness :
    validate_file ["E3B0C44298FC1C149AFBF4C8996FB92427AE41E4649B934CA495991B7852B855"]
      0 (some []) = Except.ok ValidationOutcome.Corrupt ∧
    validate_file [sha256Hex []] 0 (some []) =
      Except.ok ValidationOutcome.Validated :=
  digest_case_amended []
    "E3B0C44298FC1C149AFBF4C8996FB92427AE41E4649B934CA495991B7852B855" (by decide)

/-- Claim C8: an entry with no registered digest reports the no-hash outcome
regardless of the file content or existence, as an ordinary non-error result;
in the repository configuration (an empty HASHES list) a whole validate run
reports it for every entry and never aborts. -/
theorem no_digest_reported (hashes : List String) (position : Nat) (file : LocalFile)
    (files : List LocalFile) (h : hashes.length ≤ position) :
    validate_file hashes position file = Except.ok ValidationOutcome.NoHash ∧
    validate [] files = Except.ok (files.map fun _ => ValidationOutcome.NoHash) := by
  have e : hashes[position]? = none := List.getElem?_eq_none h
  exact ⟨by simp [validate_file, e], validateFrom_no_hashes 0 files⟩

/-- Witness for claim C8 at a concrete input. -/
theorem no_digest_reported_witness :
    validate_file [] 0 none = Except.ok ValidationOutcome.NoHash ∧
    validate [] [none] = Except.ok [ValidationOutcome.NoHash] :=
  no_digest_reported [] 0 none [none] (by decide)

/-- Claim C9 counterexample: with two catalog entries and a probe failure on
the first, the download run leaves the second entry unprocessed (still
absent), although running that entry alone would have downloaded it; so an
error in one entry does not merely skip that entry but stops the rest. -/
theorem entry_error_abort_counterexample :
    download [ProbeResult.failed, ProbeResult.ok ⟨[7], 1⟩] [none, none] =
      [none, none] ∧
    download [ProbeResult.ok ⟨[7], 1⟩] [none] = [some [7]] :=
  ⟨rfl, rfl⟩

/-- Claim C9 amended: the download loop has no per-entry error handling, so a
transient error raised while processing one catalog entry aborts the whole
run: the failing entry and every later entry are left untouched on disk. -/
theorem entry_error_aborts_rest (pre : List Remote) (probes : List ProbeResult)
    (locals : List LocalFile) :
    (download (pre.map ProbeResult.ok ++ ProbeResult.failed :: probes) locals).drop
      pre.length = locals.drop pre.length := by
  induction pre generalizing locals with
  | nil => simp [download]
  | cons r rs ih =>
      cases locals with
      | nil => simp [download]
      | cons l ls =>
          simp only [List.map_cons, List.cons_append, download, List.length_cons,
            List.drop_succ_cons]
          exact ih ls

/-- Claim C10: invoking the transfer engine with a resume offset of 0 is
behaviourally identical to a fresh start: no range header is sent, the target
is opened in truncate-write mode, and the resulting bytes equal those of a
fresh full download. -/
theorem resume_zero_equals_fresh (remote : Remote) (localFile : LocalFile) :
    downloader remote localFile (some 0) = downloader remote localFile none ∧
    (downloader remote localFile (some 0)).rangeHeader = none ∧
    (downloader remote localFile (some 0)).mode = FileMode.write ∧
    (downloader remote localFile (some 0)).result =
      (downloader remote none none).result :=
  ⟨rfl, rfl, rfl, rfl⟩

end ResumableDownloader
